import Mathlib

/-!
Verification of the hybrid analysis and streaming orchestration engine.

The development shallowly embeds the two core modules of the repository:

* `services/staticAnalyzer.ts` — the regex-based pattern scanner
  (`analyzeCodeStatic`), embedded here as `analyzeCodeStatic` over explicit
  character-list matchers that mirror each JavaScript regular expression.
* `services/geminiService.ts` — the streaming session orchestrator
  (`analyzeAndOptimizeStream`), embedded as per-fragment control-marker
  processing (`processChunk`), the tool-execution loop (`runLoop`), terminal
  payload extraction (`extractCandidate` / `extractAndParse`), the catch-block
  error reclassification (`catchBlock`) and the retry helper (`retryOperation`
  → `retryRun`).

Modelling conventions: JavaScript strings are Lean `String`s (scanned as
`List Char`); JavaScript numbers are modelled as exact rationals `ℚ`
(the numeric values involved in the verified properties are small integers,
where IEEE doubles are exact); `JSON.parse` is embedded as the executable
recursive-descent parser `JsonVal.parse`; thrown errors are `Except` values.
-/

/-! ## Character and substring utilities (JavaScript regex character classes) -/

/-- JavaScript `\s` (whitespace) character class, restricted to the common
whitespace code points (exotic Unicode space separators are not modelled). -/
def isJsWs (c : Char) : Bool :=
  c = ' ' || c = '\t' || c = '\n' || c = '\r' || c = '\x0b' || c = '\x0c' || c = ' '

/-- Line terminators excluded by the JavaScript `.` (dot) metacharacter. -/
def isNewlineCh (c : Char) : Bool :=
  c = '\n' || c = '\r'

/-- JavaScript `\w` word-character class `[A-Za-z0-9_]`. -/
def isWordChar (c : Char) : Bool :=
  c.isAlphanum || c = '_'

/-- Substring containment on character lists: does `pat` occur in the list? -/
def hasSubL (pat : List Char) : List Char → Bool
  | [] => pat.isPrefixOf []
  | c :: r => pat.isPrefixOf (c :: r) || hasSubL pat r

/-- JavaScript `String.prototype.includes`. -/
def jsIncludes (s pat : String) : Bool :=
  hasSubL pat.data s.data

/-- Length of the maximal leading run of characters satisfying `p`
(the greedy match of `p*` at the head of the list). -/
def leadingCount (p : Char → Bool) : List Char → Nat
  | [] => 0
  | c :: r => if p c then leadingCount p r + 1 else 0

/-- Does `p` hold of some suffix of the list (i.e. does a pattern whose
matcher is `p` match at some start position, including the end position)? -/
def existsPosB (p : List Char → Bool) : List Char → Bool
  | [] => p []
  | c :: r => p (c :: r) || existsPosB p r

/-- JavaScript `String.prototype.trim`: remove leading and trailing
whitespace/line terminators. -/
def jsTrimL (l : List Char) : List Char :=
  ((l.dropWhile isJsWs).reverse.dropWhile isJsWs).reverse

def jsTrimS (s : String) : String :=
  String.mk (jsTrimL s.data)

/-! ## Pattern scanner (`staticAnalyzer.ts`, `analyzeCodeStatic`)

Each JavaScript regular expression of the source is embedded as a
deterministic matcher.  For every pattern used by the scanner, the greedy
sub-expressions (`\s*`, `\s+`, `[^)]+`, `\w+`) are followed by a literal
character that can never itself belong to the repeated class, so the
backtracking regex engine accepts exactly the maximal run: the matchers
below therefore take the maximal run without loss of fidelity.

The `structuralHighlights` and `imports` fields of the source result are
line-number/metadata outputs not referenced by any verified property; they
are omitted from the embedded record.  `estimatedFlops` carries the heuristic
cost in exact hundredths of a unit (the source weights 0.5/0.1/0.01/0.0/0.8
times the match counts, rounded via `toFixed(3)`). -/

/-- Matcher for `nn\.<Name>\s*\(` (and, with `needsArgs`, `nn\.<Name>\s*\(([^)]+)\)`):
returns the length of the match starting at the head, if any. -/
def layerMatcher (name : List Char) (needsArgs : Bool) (l : List Char) : Option Nat :=
  if name.isPrefixOf l then
    let r := List.drop name.length l
    let w := leadingCount isJsWs r
    match List.drop w r with
    | '(' :: r3 =>
      if needsArgs then
        let a := leadingCount (fun c => c ≠ ')') r3
        if 1 ≤ a ∧ (List.drop a r3).head? = some ')' then
          some (name.length + w + 1 + a + 1)
        else none
      else some (name.length + w + 1)
    | _ => none
  else none

/-- Matcher for `class\s+\w+\(nn\.Module\)`. -/
def classDefMatcher (l : List Char) : Option Nat :=
  if ("class".data).isPrefixOf l then
    let r := List.drop 5 l
    let w := leadingCount isJsWs r
    if 1 ≤ w then
      let r2 := List.drop w r
      let a := leadingCount isWordChar r2
      if 1 ≤ a ∧ ("(nn.Module)".data).isPrefixOf (List.drop a r2) then
        some (5 + w + a + 11)
      else none
    else none
  else none

/-- Count the non-overlapping matches of `m` over the list, advancing past
each match exactly as `RegExp.exec` with the `g` flag does (`lastIndex` moves
to the end of the match; all matchers yield positive lengths).  The fuel
argument bounds the scan; `countMatches` supplies `l.length`, which is
sufficient since every step consumes at least one character. -/
def countAux (m : List Char → Option Nat) : Nat → List Char → Nat
  | 0, _ => 0
  | _ + 1, [] => 0
  | f + 1, c :: r =>
    match m (c :: r) with
    | some n => 1 + countAux m f (List.drop (max n 1) (c :: r))
    | none => countAux m f r

def countMatches (m : List Char → Option Nat) (l : List Char) : Nat :=
  countAux m l.length l

def convCount (l : List Char) : Nat := countMatches (layerMatcher ("nn.Conv2d".data) true) l
def linearCount (l : List Char) : Nat := countMatches (layerMatcher ("nn.Linear".data) true) l
def bnCount (l : List Char) : Nat := countMatches (layerMatcher ("nn.BatchNorm2d".data) false) l
def reluCount (l : List Char) : Nat := countMatches (layerMatcher ("nn.ReLU".data) false) l
def mhaCount (l : List Char) : Nat := countMatches (layerMatcher ("nn.MultiheadAttention".data) false) l

/-- The `layerCounts` record: an entry per op name whose count is positive,
in the iteration order of the source's `ops` array. -/
def layerCountsOf (l : List Char) : List (String × Nat) :=
  (if 0 < convCount l then [("Conv2d", convCount l)] else []) ++
  (if 0 < linearCount l then [("Linear", linearCount l)] else []) ++
  (if 0 < bnCount l then [("BatchNorm", bnCount l)] else []) ++
  (if 0 < reluCount l then [("ReLU", reluCount l)] else []) ++
  (if 0 < mhaCount l then [("MultiheadAttention", mhaCount l)] else [])

/-- `Object.values(layerCounts).reduce((a, b) => a + b, 0)`. -/
def totalLayersOf (l : List Char) : Nat :=
  ((layerCountsOf l).map Prod.snd).sum

/-- Heuristic cost accumulation in hundredths of a unit
(Conv2d 0.5, Linear 0.1, BatchNorm 0.01, ReLU 0.0, MultiheadAttention 0.8). -/
def centiFlops (l : List Char) : Nat :=
  50 * convCount l + 10 * linearCount l + 1 * bnCount l + 0 * reluCount l + 80 * mhaCount l

def classDefCount (l : List Char) : Nat :=
  countMatches classDefMatcher l

/-- Existence matcher for `def\s+<target>` at the head of the list. -/
def defWsLit (tgt : List Char) (l : List Char) : Bool :=
  ("def".data).isPrefixOf l &&
    (let r := List.drop 3 l
     let w := leadingCount isJsWs r
     decide (1 ≤ w) && tgt.isPrefixOf (List.drop w r))

/-- Suffixes reachable by consuming one or more `\s` characters. -/
def wsSuffixes1 : List Char → List (List Char)
  | [] => []
  | c :: r => if isJsWs c then r :: wsSuffixes1 r else []

/-- Suffixes reachable by consuming zero or more non-newline (`.`) characters. -/
def dotSuffixes : List Char → List (List Char)
  | [] => [[]]
  | c :: r => (c :: r) :: (if isNewlineCh c then [] else dotSuffixes r)

/-- Existence of a `\s+.*\s+in` continuation (the body of `for\s+.*\s+in`). -/
def forInAfter (l : List Char) : Bool :=
  (wsSuffixes1 l).any fun a =>
    (dotSuffixes a).any fun b =>
      (wsSuffixes1 b).any fun c2 => ("in".data).isPrefixOf c2

/-- Existence check for `for\s+.*\s+in`. -/
def hasForIn (l : List Char) : Bool :=
  existsPosB (fun l2 => ("for".data).isPrefixOf l2 && forInAfter (List.drop 3 l2)) l

/-- The four abstraction-detection checks, in source order. -/
def abstractionWarningsOf (l : List Char) : List String :=
  (if existsPosB (defWsLit ("make_layer".data)) l || existsPosB (defWsLit ("_make_layer".data)) l
   then ["Detected Layer Factory pattern."] else []) ++
  (if hasSubL ("*args".data) l || hasSubL ("**kwargs".data) l
   then ["Detected Dynamic Arguments (*args/**kwargs)."] else []) ++
  (if hasSubL ("hydra.main".data) l || hasSubL ("cfg.".data) l
   then ["Detected Configuration Injection (Hydra/Cfg)."] else []) ++
  (if hasSubL ("nn.ModuleList".data) l && hasForIn l
   then ["Detected Dynamic Module Loops."] else [])

inductive ComplexityLevel
  | Low
  | Medium
  | High
deriving DecidableEq

/-- `(classDefs > 0 && totalLayers === 0) || abstractionWarnings.length > 0`. -/
def requiresDynamicTracingOf (l : List Char) : Bool :=
  (decide (0 < classDefCount l) && decide (totalLayersOf l = 0)) ||
    !(abstractionWarningsOf l).isEmpty

/-- An apostrophe character, used to assemble source-faithful message strings. -/
def aposS : String := String.mk ['\x27']

def missingTorchMsg : String :=
  "Missing " ++ aposS ++ "import torch" ++ aposS ++ ". Optimization requires PyTorch."

structure StaticAnalysis where
  isValid : Bool
  errors : List String
  estimatedFlops : Nat
  layerCounts : List (String × Nat)
  complexityLevel : ComplexityLevel
  requiresDynamicTracing : Bool
  abstractionWarnings : List String
deriving DecidableEq

/-- Embedding of `analyzeCodeStatic` (staticAnalyzer.ts).  The error list is
built in source order: the missing-import error first, then the
unbalanced-parentheses error; `isValid` is `errors.length === 0`. -/
def analyzeCodeStatic (code : String) : StaticAnalysis :=
  let l := code.data
  let torchErrors := if jsIncludes code "import torch" then [] else [missingTorchMsg]
  let warnings := abstractionWarningsOf l
  let rdt := requiresDynamicTracingOf l
  let level : ComplexityLevel :=
    if rdt then ComplexityLevel.High
    else if 10 < totalLayersOf l then ComplexityLevel.Medium
    else ComplexityLevel.Low
  let openParens := l.count '('
  let closeParens := l.count ')'
  let parenErrors :=
    if openParens = closeParens then []
    else ["Syntax Error: Unbalanced parentheses (Open: " ++ toString openParens ++
            ", Close: " ++ toString closeParens ++ ")"]
  let errors := torchErrors ++ parenErrors
  { isValid := errors.isEmpty
    errors := errors
    estimatedFlops := centiFlops l
    layerCounts := layerCountsOf l
    complexityLevel := level
    requiresDynamicTracing := rdt
    abstractionWarnings := warnings }

/-! ## Claims C3, C7, C10 about the pattern scanner -/

/-- C3 counterexample: on the empty input, `analyzeCodeStatic` records the
missing-import error, so the error list is nonempty and `isValid` is `false` —
contradicting the claim that the empty input yields an empty errors array and
`isValid = true`. -/
theorem claim3_counterexample :
    (analyzeCodeStatic "").isValid = false ∧ (analyzeCodeStatic "").errors ≠ [] := by
  decide

/-- C3 (amended): for the empty input string, the scanner returns zero
construct counts (empty `layerCounts`, zero cost), tier `Low`, and exactly one
recorded error — the missing `import torch` error — hence `isValid = false`. -/
theorem claim3_empty_input :
    (analyzeCodeStatic "").layerCounts = [] ∧
    (analyzeCodeStatic "").complexityLevel = ComplexityLevel.Low ∧
    (analyzeCodeStatic "").errors = [missingTorchMsg] ∧
    (analyzeCodeStatic "").isValid = false ∧
    (analyzeCodeStatic "").estimatedFlops = 0 := by
  decide

/-- C7: for every input, the tier is `High` iff the finding is low-confidence
(`requiresDynamicTracing`), which in turn holds iff some abstraction warning
fired or a class definition was found with zero matched constructs; otherwise
the tier is `Medium` iff the total construct count exceeds 10, and `Low`
otherwise. -/
theorem claim7_tier_assignment (code : String) :
    ((analyzeCodeStatic code).complexityLevel = ComplexityLevel.High ↔
      (analyzeCodeStatic code).requiresDynamicTracing = true) ∧
    ((analyzeCodeStatic code).requiresDynamicTracing =
      ((decide (0 < classDefCount code.data) && decide (totalLayersOf code.data = 0)) ||
        !(abstractionWarningsOf code.data).isEmpty)) ∧
    ((analyzeCodeStatic code).complexityLevel = ComplexityLevel.Medium ↔
      ((analyzeCodeStatic code).requiresDynamicTracing = false ∧ 10 < totalLayersOf code.data)) ∧
    ((analyzeCodeStatic code).complexityLevel = ComplexityLevel.Low ↔
      ((analyzeCodeStatic code).requiresDynamicTracing = false ∧ totalLayersOf code.data ≤ 10)) := by
  refine ⟨?_, rfl, ?_, ?_⟩ <;>
    · show _ ↔ _
      cases h : requiresDynamicTracingOf code.data <;>
        rcases Nat.lt_or_ge 10 (totalLayersOf code.data) with h2 | h2 <;>
          simp [analyzeCodeStatic, h, h2, Nat.not_lt.mpr h2, Nat.lt_irrefl]

/-- C10: for every input, `isValid` holds iff the error list is empty, and any
input lacking the substring `import torch` records an error and is invalid. -/
theorem claim10_isvalid_iff_no_errors (code : String) :
    ((analyzeCodeStatic code).isValid = true ↔ (analyzeCodeStatic code).errors = []) ∧
    (jsIncludes code "import torch" = false → (analyzeCodeStatic code).isValid = false) := by
  constructor
  · simp [analyzeCodeStatic, List.isEmpty_iff]
  · intro h
    simp [analyzeCodeStatic, h]

/-- Witness for C10 at a concrete non-PyTorch input. -/
theorem claim10_witness :
    jsIncludes "print(1)" "import torch" = false ∧
      (analyzeCodeStatic "print(1)").isValid = false :=
  ⟨by decide, (claim10_isvalid_iff_no_errors "print(1)").2 (by decide)⟩

/-! ## Control-marker processing (`geminiService.ts`, streaming loop body)

Three distinct regular expressions of the source are embedded:

* `/\[\[PHASE:\s*(.*?)\]\]/` (no `g` flag) — the per-fragment *detection*
  regex: only the first match fires `onPhaseChange(match[1].trim())`.
* `/\[\[PHASE:.*?\]\]/g` — the per-fragment *stripping* regex applied before
  forwarding the fragment to `onChunk` (the lazy `.*?` cannot cross a line
  terminator).
* `/\[\[PHASE:[\s\S]*?\]\]/g` — the *global* stripping regex applied once to
  the accumulated buffer before payload extraction (`[\s\S]` crosses lines).

In each pattern the literal `[[PHASE:` is followed by a lazy repetition up to
the first reachable `]]`; for the detection regex the greedy `\s*` run is
monotone (shrinking it can never turn a failed closing search into a
successful one, since a whitespace character is never `]`), so the maximal
whitespace run is taken. -/

def phaseLit : List Char := "[[PHASE:".data

/-- Index of the first `]]` reachable over non-newline characters
(the lazy `.*?\]\]` continuation), if any. -/
def findCloseNoNl : List Char → Option Nat
  | [] => none
  | [_] => none
  | c1 :: c2 :: r =>
    if c1 = ']' ∧ c2 = ']' then some 0
    else if isNewlineCh c1 then none
    else (findCloseNoNl (c2 :: r)).map (· + 1)

/-- Index of the first `]]` reachable over arbitrary characters
(the lazy `[\s\S]*?\]\]` continuation), if any. -/
def findCloseAny : List Char → Option Nat
  | [] => none
  | [_] => none
  | c1 :: c2 :: r =>
    if c1 = ']' ∧ c2 = ']' then some 0
    else (findCloseAny (c2 :: r)).map (· + 1)

/-- The capture group of `/\[\[PHASE:\s*(.*?)\]\]/` when the pattern matches
at the head of the list. -/
def tryPhaseAt (l : List Char) : Option (List Char) :=
  if phaseLit.isPrefixOf l then
    let r := List.drop 8 l
    let w := leadingCount isJsWs r
    (findCloseNoNl (List.drop w r)).map fun k => List.take k (List.drop w r)
  else none

/-- Leftmost match of the detection regex: capture group of the first
position at which `/\[\[PHASE:\s*(.*?)\]\]/` matches. -/
def findFirstPhaseL : List Char → Option (List Char)
  | [] => none
  | c :: r =>
    match tryPhaseAt (c :: r) with
    | some g => some g
    | none => findFirstPhaseL r

def findFirstPhase (s : String) : Option String :=
  (findFirstPhaseL s.data).map String.mk

/-- One pass of `text.replace(/\[\[PHASE:.*?\]\]/g, '')`: each complete
marker is removed and scanning resumes after it (removed text is never
rescanned, exactly as the JavaScript engine behaves).  The fuel argument
makes the recursion structural; every step consumes at least one character,
so `l.length` fuel (supplied by `stripChunkL`) is always sufficient. -/
def stripChunkA : Nat → List Char → List Char
  | 0, l => l
  | _ + 1, [] => []
  | f + 1, c :: r =>
    if phaseLit.isPrefixOf (c :: r) then
      match findCloseNoNl (List.drop 8 (c :: r)) with
      | some k => stripChunkA f (List.drop (8 + k + 2) (c :: r))
      | none => c :: stripChunkA f r
    else c :: stripChunkA f r

def stripChunkL (l : List Char) : List Char :=
  stripChunkA l.length l

/-- One pass of `cleanText.replace(/\[\[PHASE:[\s\S]*?\]\]/g, '')`. -/
def stripGlobalA : Nat → List Char → List Char
  | 0, l => l
  | _ + 1, [] => []
  | f + 1, c :: r =>
    if phaseLit.isPrefixOf (c :: r) then
      match findCloseAny (List.drop 8 (c :: r)) with
      | some k => stripGlobalA f (List.drop (8 + k + 2) (c :: r))
      | none => c :: stripGlobalA f r
    else c :: stripGlobalA f r

def stripGlobalL (l : List Char) : List Char :=
  stripGlobalA l.length l

/-- Observable effect of processing one streamed fragment (the body of the
`for await` loop): `finalJsonText += text` appends the *unstripped* fragment;
the first detected marker (if any) fires `onPhaseChange` once; the fragment
with complete markers stripped is forwarded to `onChunk` when nonempty. -/
structure ChunkEffect where
  rawAppend : String
  phaseEvents : List String
  narration : List String
deriving DecidableEq

def processChunk (text : String) : ChunkEffect :=
  { rawAppend := text
    phaseEvents :=
      match findFirstPhase text with
      | some g => [jsTrimS g]
      | none => []
    narration :=
      let clean := String.mk (stripChunkL text.data)
      if clean = "" then [] else [clean] }

/-! Auxiliary lemmas: in the absence of the literal `[[PHASE:` the marker
machinery is inert. -/

theorem hasSubL_cons_false {pat : List Char} {c : Char} {r : List Char}
    (h : hasSubL pat (c :: r) = false) :
    pat.isPrefixOf (c :: r) = false ∧ hasSubL pat r = false := by
  simpa [hasSubL] using h

theorem stripChunkA_of_no_marker :
    ∀ (f : Nat) (l : List Char), hasSubL phaseLit l = false → stripChunkA f l = l := by
  intro f
  induction f with
  | zero => intro l _; rfl
  | succ f ih =>
    intro l h
    cases l with
    | nil => rfl
    | cons c r =>
      obtain ⟨h1, h2⟩ := hasSubL_cons_false h
      simp [stripChunkA, h1, ih r h2]

theorem stripChunkL_of_no_marker (l : List Char) (h : hasSubL phaseLit l = false) :
    stripChunkL l = l :=
  stripChunkA_of_no_marker l.length l h

theorem stripGlobalA_of_no_marker :
    ∀ (f : Nat) (l : List Char), hasSubL phaseLit l = false → stripGlobalA f l = l := by
  intro f
  induction f with
  | zero => intro l _; rfl
  | succ f ih =>
    intro l h
    cases l with
    | nil => rfl
    | cons c r =>
      obtain ⟨h1, h2⟩ := hasSubL_cons_false h
      simp [stripGlobalA, h1, ih r h2]

theorem stripGlobalL_of_no_marker (l : List Char) (h : hasSubL phaseLit l = false) :
    stripGlobalL l = l :=
  stripGlobalA_of_no_marker l.length l h

theorem findFirstPhaseL_of_no_marker :
    ∀ l : List Char, hasSubL phaseLit l = false → findFirstPhaseL l = none := by
  intro l
  induction l with
  | nil => intro _; rfl
  | cons c r ih =>
    intro h
    obtain ⟨h1, h2⟩ := hasSubL_cons_false h
    simp [findFirstPhaseL, tryPhaseAt, h1, ih h2]

/-! ## Claim C1 -/

/-- C1 counterexample: the single fragment `[[PHA[[PHASE: Y]]SE: Z]]` is
forwarded to `onChunk` as `[[PHASE: Z]]` — the single-pass strip removes the
inner marker and thereby *creates* a complete marker that is not rescanned —
so the narration forwarded to the caller contains the literal substring
`[[PHASE:`, contradicting the claim. -/
theorem claim1_counterexample :
    (processChunk "[[PHA[[PHASE: Y]]SE: Z]]").narration = ["[[PHASE: Z]]"] ∧
    jsIncludes "[[PHASE: Z]]" "[[PHASE:" = true := by
  decide

/-- C1 (amended): per fragment, `onPhaseChange` fires at most once (for the
first complete marker, not once per occurrence); the raw accumulation buffer
receives the fragment *unstripped* (markers are removed from it only later,
at extraction); the narration forwarded to `onChunk` is the fragment with
complete markers removed in a single left-to-right pass, which can leave a
literal `[[PHASE:` behind when markers nest or split across fragments; and a
fragment with no occurrence of `[[PHASE:` is forwarded verbatim with no
callback. -/
theorem claim1_marker_processing (t : String) :
    (processChunk t).rawAppend = t ∧
    (processChunk t).phaseEvents.length ≤ 1 ∧
    (processChunk t).narration = (if String.mk (stripChunkL t.data) = "" then []
      else [String.mk (stripChunkL t.data)]) ∧
    (hasSubL phaseLit t.data = false →
      (processChunk t).phaseEvents = [] ∧
      (processChunk t).narration = (if t = "" then [] else [t])) := by
  refine ⟨rfl, ?_, rfl, ?_⟩
  · simp only [processChunk]
    cases findFirstPhase t <;> simp
  · intro h
    have hs : stripChunkL t.data = t.data := stripChunkL_of_no_marker t.data h
    have hf : findFirstPhaseL t.data = none := findFirstPhaseL_of_no_marker t.data h
    constructor
    · simp [processChunk, findFirstPhase, hf]
    · simp [processChunk, hs]

/-- Witness for C1 at concrete fragments: a marker-free fragment is forwarded
verbatim with no phase callback. -/
theorem claim1_witness :
    hasSubL phaseLit "hello world".data = false ∧
      (processChunk "hello world").phaseEvents = [] ∧
      (processChunk "hello world").narration = ["hello world"] := by
  have h := claim1_marker_processing "hello world"
  have h4 := h.2.2.2 (by decide)
  exact ⟨by decide, h4.1, by simpa using h4.2⟩

/-! ## JSON values and `JSON.parse`

The orchestrator calls `JSON.parse` in two places: to parse the extracted
terminal payload, and to unwrap an error body serialized inside an error
message.  The parser below is an executable recursive-descent embedding of
the JSON grammar; numbers are represented as exact rationals (the values the
verified properties touch — small integers such as `429` — are exactly
representable IEEE doubles), and a lone-surrogate `\u` escape is replaced by
U+FFFD since Lean characters are Unicode scalar values. -/

inductive JsonVal
  | null
  | bool (b : Bool)
  | num (q : ℚ)
  | str (s : String)
  | arr (elems : List JsonVal)
  | obj (members : List (String × JsonVal))

def jsonSkipWs (l : List Char) : List Char :=
  l.dropWhile fun c => c = ' ' || c = '\t' || c = '\n' || c = '\r'

def hexVal (c : Char) : Option Nat :=
  if c.isDigit then some (c.toNat - 48)
  else if 'a' ≤ c ∧ c ≤ 'f' then some (c.toNat - 87)
  else if 'A' ≤ c ∧ c ≤ 'F' then some (c.toNat - 55)
  else none

/-- Parse the body of a JSON string (the opening quote already consumed);
returns the decoded characters and the remainder after the closing quote. -/
def pStringA : Nat → List Char → Option (List Char × List Char)
  | 0, _ => none
  | _ + 1, [] => none
  | f + 1, c :: r =>
    if c = '"' then some ([], r)
    else if c = '\\' then
      match r with
      | [] => none
      | e :: r2 =>
        let esc : Option (Char × List Char) :=
          if e = '"' then some ('"', r2)
          else if e = '\\' then some ('\\', r2)
          else if e = '/' then some ('/', r2)
          else if e = 'b' then some ('\x08', r2)
          else if e = 'f' then some ('\x0c', r2)
          else if e = 'n' then some ('\n', r2)
          else if e = 'r' then some ('\x0d', r2)
          else if e = 't' then some ('\t', r2)
          else if e = 'u' then
            match r2 with
            | a :: b :: c2 :: d :: r3 =>
              match hexVal a, hexVal b, hexVal c2, hexVal d with
              | some ha, some hb, some hc, some hd =>
                let code := ((ha * 16 + hb) * 16 + hc) * 16 + hd
                some (if 0xD800 ≤ code ∧ code ≤ 0xDFFF then '�' else Char.ofNat code, r3)
              | _, _, _, _ => none
            | _ => none
          else none
        match esc with
        | some (ch, rest) => (pStringA f rest).map fun p => (ch :: p.1, p.2)
        | none => none
    else if c.toNat < 32 then none
    else (pStringA f r).map fun p => (c :: p.1, p.2)

def digitsVal (ds : List Char) : Nat :=
  ds.foldl (fun a c => a * 10 + (c.toNat - 48)) 0

/-- Assemble the exact rational value of a JSON number from its sign,
integer digits, fraction digits and decimal exponent.  Plain integers (no
fraction, zero exponent) are built as a cast natural number so the value
reduces inside the kernel; the general branch computes the same rational via
scaling. -/
def mkNum (neg : Bool) (intDs fracDs : List Char) (e : Int) : ℚ :=
  let mantN : ℚ := (digitsVal (intDs ++ fracDs) : ℚ)
  let mant : ℚ := if neg then -mantN else mantN
  if fracDs.isEmpty ∧ e = 0 then mant
  else
    let base : ℚ := mant / (10 : ℚ) ^ fracDs.length
    if 0 ≤ e then base * (10 : ℚ) ^ e.toNat else base / (10 : ℚ) ^ (-e).toNat

def pNumExp (neg : Bool) (intDs fracDs : List Char) (l : List Char) : Option (ℚ × List Char) :=
  match l with
  | c :: r =>
    if c = 'e' ∨ c = 'E' then
      let sgnRest : Int × List Char :=
        match r with
        | '+' :: r3 => (1, r3)
        | '-' :: r3 => (-1, r3)
        | _ => (1, r)
      let ed := sgnRest.2.takeWhile Char.isDigit
      if ed.isEmpty then none
      else some (mkNum neg intDs fracDs (sgnRest.1 * (digitsVal ed : Int)),
                 sgnRest.2.dropWhile Char.isDigit)
    else some (mkNum neg intDs fracDs 0, l)
  | [] => some (mkNum neg intDs fracDs 0, [])

def pNumFrac (neg : Bool) (intDs : List Char) (l : List Char) : Option (ℚ × List Char) :=
  match l with
  | '.' :: r =>
    let fd := r.takeWhile Char.isDigit
    if fd.isEmpty then none
    else pNumExp neg intDs fd (r.dropWhile Char.isDigit)
  | _ => pNumExp neg intDs [] l

/-- Parse a JSON number (`-?(0|[1-9][0-9]*)(\.[0-9]+)?([eE][+-]?[0-9]+)?`). -/
def pNumber (l : List Char) : Option (ℚ × List Char) :=
  let sgnRest : Bool × List Char :=
    match l with
    | '-' :: r => (true, r)
    | _ => (false, l)
  match sgnRest.2 with
  | '0' :: r => pNumFrac sgnRest.1 ['0'] r
  | c :: r =>
    if c.isDigit then
      pNumFrac sgnRest.1 (c :: r.takeWhile Char.isDigit) (r.dropWhile Char.isDigit)
    else none
  | [] => none

mutual

def pVal : Nat → List Char → Option (JsonVal × List Char)
  | 0, _ => none
  | f + 1, l =>
    match jsonSkipWs l with
    | [] => none
    | c :: r =>
      if c = '{' then
        match jsonSkipWs r with
        | '}' :: r2 => some (.obj [], r2)
        | r2 => pMembers f r2 []
      else if c = '[' then
        match jsonSkipWs r with
        | ']' :: r2 => some (.arr [], r2)
        | r2 => pElems f r2 []
      else if c = '"' then
        (pStringA (f + 1) r).map fun p => (.str (String.mk p.1), p.2)
      else if ("true".data).isPrefixOf (c :: r) then some (.bool true, List.drop 3 r)
      else if ("false".data).isPrefixOf (c :: r) then some (.bool false, List.drop 4 r)
      else if ("null".data).isPrefixOf (c :: r) then some (.null, List.drop 3 r)
      else if c = '-' ∨ c.isDigit then
        (pNumber (c :: r)).map fun p => (.num p.1, p.2)
      else none

def pMembers : Nat → List Char → List (String × JsonVal) → Option (JsonVal × List Char)
  | 0, _, _ => none
  | f + 1, l, acc =>
    match l with
    | '"' :: r =>
      match pStringA (f + 1) r with
      | some (key, r2) =>
        match jsonSkipWs r2 with
        | ':' :: r3 =>
          match pVal f r3 with
          | some (v, r4) =>
            match jsonSkipWs r4 with
            | ',' :: r5 => pMembers f (jsonSkipWs r5) (acc ++ [(String.mk key, v)])
            | '}' :: r5 => some (.obj (acc ++ [(String.mk key, v)]), r5)
            | _ => none
          | none => none
        | _ => none
      | none => none
    | _ => none

def pElems : Nat → List Char → List JsonVal → Option (JsonVal × List Char)
  | 0, _, _ => none
  | f + 1, l, acc =>
    match pVal f l with
    | some (v, r) =>
      match jsonSkipWs r with
      | ',' :: r2 => pElems f r2 (acc ++ [v])
      | ']' :: r2 => some (.arr (acc ++ [v]), r2)
      | _ => none
    | none => none

end

/-- `JSON.parse`: parse a complete JSON document (whitespace-tolerant at both
ends); `none` models a thrown `SyntaxError`.  The fuel is generous: every
parsing step consumes input, so `2·length + 4` can never be exhausted first. -/
def JsonVal.parse (s : String) : Option JsonVal :=
  match pVal (2 * s.length + 4) s.data with
  | some (v, rest) => if (jsonSkipWs rest).isEmpty then some v else none
  | none => none

/-- JavaScript truthiness of a parsed JSON value (used by `if (parsed.error)`). -/
def jsTruthy : JsonVal → Bool
  | .null => false
  | .bool b => b
  | .num q => decide (q ≠ 0)
  | .str s => decide (s ≠ "")
  | .arr _ => true
  | .obj _ => true

/-- Property access on a parsed JSON object: duplicate keys resolve to the
last occurrence, as `JSON.parse` assigns properties in document order. -/
def objLookupLast (j : JsonVal) (k : String) : Option JsonVal :=
  match j with
  | .obj members => members.foldl (fun acc p => if p.1 = k then some p.2 else acc) none
  | _ => none

/-! ## Terminal payload extraction (`geminiService.ts`, lines 395–416) -/

structure GeminiError where
  message : String
  isRetryable : Bool
deriving DecidableEq

def noOutputMsg : String := "Model failed to generate a JSON response."

def malformedMsg : String := "Failed to parse analysis report. The model output was malformed."

/-- `indexOf` on characters (as `Option`; the source compares against `-1`). -/
def firstIdxOf (c : Char) : List Char → Option Nat
  | [] => none
  | x :: r => if x = c then some 0 else (firstIdxOf c r).map (· + 1)

/-- `lastIndexOf` on characters. -/
def lastIdxOf (c : Char) (l : List Char) : Option Nat :=
  (firstIdxOf c l.reverse).map fun i => l.length - 1 - i

/-- `substring(i, j + 1)`. -/
def sliceIncl (i j : Nat) (l : List Char) : List Char :=
  List.take (j + 1 - i) (List.drop i l)

/-- The candidate payload sliced out of the raw buffer: strip all control
markers globally, then cut from the first `{` to the last `}` inclusive when
both exist in that order, falling back to the trimmed remainder. -/
def extractCandidateL (l : List Char) : List Char :=
  let clean := stripGlobalL l
  match firstIdxOf '{' clean, lastIdxOf '}' clean with
  | some i, some j => if i < j then sliceIncl i j clean else jsTrimL clean
  | _, _ => jsTrimL clean

def extractCandidate (b : String) : String :=
  String.mk (extractCandidateL b.data)

/-- The post-loop tail of the orchestrator: empty buffer → retryable
"no output" failure; unparseable candidate → non-retryable "malformed
output" failure; otherwise the parsed report. -/
def extractAndParse (b : String) : Except GeminiError JsonVal :=
  if b = "" then .error ⟨noOutputMsg, true⟩
  else
    match JsonVal.parse (extractCandidate b) with
    | some v => .ok v
    | none => .error ⟨malformedMsg, false⟩

/-! ## Failure classification and retry (`geminiService.ts`, lines 24–39 and 418–448)

A thrown JavaScript error object is modelled by the fields the code
inspects: `message`, the numeric `status`/`code` properties,
`JSON.stringify(error)` (supplied as data, since serialization of an
arbitrary foreign object is outside the embedding), and whether the object
is an `instanceof GeminiError` (with its `isRetryable` flag). -/

structure JsError where
  message : String
  status : Option ℚ
  code : Option ℚ
  stringified : String
  geminiRetryable : Option Bool
deriving DecidableEq

/-- A freshly constructed `GeminiError` as a thrown object.  Its
`JSON.stringify` form contains exactly the own enumerable properties, in
assignment order: the `isRetryable` parameter property, then the `name`
set in the constructor (`Error#message` is non-enumerable). -/
def mkGeminiJsErr (m : String) (b : Bool) : JsError :=
  { message := m
    status := none
    code := none
    stringified := "\x7b\"isRetryable\":" ++ (if b then "true" else "false") ++
      ",\"name\":\"GeminiError\"\x7d"
    geminiRetryable := some b }

def cannedQuotaMsg : String :=
  "Gemini Quota Exceeded (429). Please wait a moment, check your plan, or use a paid API Key."

/-- JavaScript `a || b` over possibly-missing numbers (`error.status || error.code`). -/
def numOr (a b : Option ℚ) : Option ℚ :=
  match a with
  | some q => if q = 0 then b else some q
  | none => b

/-- The catch block at the end of the streaming operation: default the
message, unwrap a serialized JSON error body when the message looks like an
object (swallowing unwrap failures), reclassify quota/429 indicators into the
canned retryable quota error, re-throw `GeminiError`s unchanged, and wrap
anything else as a retryable `GeminiError` with the (possibly unwrapped)
message.  Non-string nested `error.message` values are not modelled. -/
def catchBlock (e : JsError) : JsError :=
  let errorMsg0 := if e.message = "" then "Unknown API Error" else e.message
  let status0 := numOr e.status e.code
  let unwrapped : String × Option ℚ :=
    if ("\x7b".data).isPrefixOf (jsTrimL errorMsg0.data) then
      match JsonVal.parse errorMsg0 with
      | some parsed =>
        match objLookupLast parsed "error" with
        | some errv =>
          if jsTruthy errv then
            let m2 :=
              match objLookupLast errv "message" with
              | some (.str s) => if s = "" then errorMsg0 else s
              | _ => errorMsg0
            let s2 :=
              match objLookupLast errv "code" with
              | some (.num q) => if q = 0 then status0 else some q
              | _ => status0
            (m2, s2)
          else (errorMsg0, status0)
        | none => (errorMsg0, status0)
      | none => (errorMsg0, status0)
    else (errorMsg0, status0)
  let errorMsg := unwrapped.1
  let status := unwrapped.2
  if decide (status = some (429 : ℚ)) || jsIncludes errorMsg "429" ||
      jsIncludes errorMsg "quota" || jsIncludes errorMsg "RESOURCE_EXHAUSTED" then
    mkGeminiJsErr cannedQuotaMsg true
  else if e.geminiRetryable.isSome then e
  else mkGeminiJsErr errorMsg true

/-- The transient-failure test of `retryOperation`: a 503 status, a
rate-limit indicator (429 status/code, or `429`/`quota`/`RESOURCE_EXHAUSTED`
inside `JSON.stringify(error)`), or a transport fault (`fetch` in the
message). -/
def isTransient (e : JsError) : Bool :=
  let errorString := e.stringified
  let isRateLimit :=
    decide (e.status = some (429 : ℚ)) || decide (e.code = some (429 : ℚ)) ||
      jsIncludes errorString "429" || jsIncludes errorString "quota" ||
      jsIncludes errorString "RESOURCE_EXHAUSTED"
  decide (e.status = some (503 : ℚ)) || isRateLimit || jsIncludes e.message "fetch"

/-- `retryOperation(operation, retries, delay)`.  The operation is modelled
as a pure attempt-indexed function; the result records the sequence of
back-off sleeps, the number of invocations of the operation, and the final
outcome.  A transient failure with retries remaining sleeps `delay` and
recurses with `retries - 1` and `delay * 2`; anything else re-raises.  The
source guards the retry with `retries > 0 && …`; the two cases of that guard
are split here into structural equations on `retries`. -/
def retryRun {α : Type} (op : Nat → Except JsError α) :
    Nat → Nat → Nat → List Nat × Nat × Except JsError α
  | 0, _, i =>
    match op i with
    | .ok a => ([], 1, .ok a)
    | .error e => ([], 1, .error e)
  | r + 1, delay, i =>
    match op i with
    | .ok a => ([], 1, .ok a)
    | .error e =>
      if isTransient e then
        let res := retryRun op r (delay * 2) (i + 1)
        (delay :: res.1, res.2.1 + 1, res.2.2)
      else ([], 1, .error e)

/-! ## Claim C5 -/

/-- C5: an empty raw buffer fails with the retryable "no output" error; the
unbalanced buffer `{"a":1` fails with the non-retryable "malformed output"
error (no unhandled exception, no report); and both `GeminiError`s pass
through the catch block unchanged, preserving their retryability. -/
theorem claim5_extraction_failure_classification :
    extractAndParse "" = .error ⟨noOutputMsg, true⟩ ∧
    extractAndParse "\x7b\"a\":1" = .error ⟨malformedMsg, false⟩ ∧
    catchBlock (mkGeminiJsErr noOutputMsg true) = mkGeminiJsErr noOutputMsg true ∧
    catchBlock (mkGeminiJsErr malformedMsg false) = mkGeminiJsErr malformedMsg false := by
  refine ⟨rfl, rfl, by decide, by decide⟩

/-! ## Claim C6 -/

/-- C6: a transient-classified first failure with `maxRetries = 1` invokes
the operation exactly twice with a 2000 ms sleep before the second attempt;
every retry doubles the delay passed onward; a non-retryable first failure
invokes the operation exactly once and re-raises the same error. -/
theorem claim6_retry_policy :
    (∀ (α : Type) (op : Nat → Except JsError α) (e : JsError),
        op 0 = .error e → isTransient e = true →
        (retryRun op 1 2000 0).2.1 = 2 ∧ (retryRun op 1 2000 0).1 = [2000]) ∧
    (∀ (α : Type) (op : Nat → Except JsError α) (e : JsError) (r d i : Nat),
        op i = .error e → isTransient e = true →
        retryRun op (r + 1) d i =
          (d :: (retryRun op r (d * 2) (i + 1)).1,
            (retryRun op r (d * 2) (i + 1)).2.1 + 1,
            (retryRun op r (d * 2) (i + 1)).2.2)) ∧
    (∀ (α : Type) (op : Nat → Except JsError α) (e : JsError) (r d : Nat),
        op 0 = .error e → isTransient e = false →
        retryRun op r d 0 = ([], 1, .error e)) := by
  refine ⟨?_, ?_, ?_⟩
  · intro α op e h ht
    have hstep : retryRun op 1 2000 0 =
        (2000 :: (retryRun op 0 4000 1).1, (retryRun op 0 4000 1).2.1 + 1,
          (retryRun op 0 4000 1).2.2) := by
      simp [retryRun, h, ht]
    cases h1 : op 1 <;> simp [hstep, retryRun, h1, h, ht]
  · intro α op e r d i h ht
    simp [retryRun, h, ht]
  · intro α op e r d h ht
    cases r <;> simp [retryRun, h, ht]

def transientErrW : JsError :=
  { message := "boom", status := some 503, code := none, stringified := "",
    geminiRetryable := none }

def nonTransientErrW : JsError :=
  { message := "boom", status := none, code := none, stringified := "",
    geminiRetryable := none }

def opTransientW : Nat → Except JsError Unit := fun _ => .error transientErrW

def opNonTransientW : Nat → Except JsError Unit := fun _ => .error nonTransientErrW

/-- Witness for C6 at concrete operations that always fail with a transient
(503) and a non-transient error respectively. -/
theorem claim6_witness :
    (retryRun opTransientW 1 2000 0).2.1 = 2 ∧
      (retryRun opTransientW 1 2000 0).1 = [2000] ∧
      retryRun opNonTransientW 3 2000 0 = ([], 1, .error nonTransientErrW) := by
  have h1 := claim6_retry_policy.1 Unit opTransientW transientErrW rfl (by decide)
  have h3 := claim6_retry_policy.2.2 Unit opNonTransientW nonTransientErrW 3 2000 rfl (by decide)
  exact ⟨h1.1, h1.2, h3⟩

/-! ## Claim C2 -/

/-- The error of the C2 scenario: a failure whose `message` is the literal
serialized body `{"error":{"code":429,"message":"quota"}}` (a plain thrown
object, not a `GeminiError`; `JSON.stringify` of a bare `Error` is `{}`
since its properties are non-enumerable). -/
def c2ErrMessage : String := "\x7b\"error\":\x7b\"code\":429,\"message\":\"quota\"\x7d\x7d"

def c2Err : JsError :=
  { message := c2ErrMessage, status := none, code := none, stringified := "\x7b\x7d",
    geminiRetryable := none }

/-- The operation wrapped by `retryOperation` is the streaming body together
with its catch block, so every attempt surfaces the reclassified error. -/
def c2Op : Nat → Except JsError Unit := fun _ => .error (catchBlock c2Err)

/-- C2 counterexample: for the quota scenario the error finally surfaced
carries the fixed message "Gemini Quota Exceeded (429). …", not the unwrapped
nested message `quota` as claimed. -/
theorem claim2_counterexample :
    (retryRun c2Op 1 2000 0).2.2 = .error (mkGeminiJsErr cannedQuotaMsg true) ∧
    cannedQuotaMsg ≠ "quota" := by
  refine ⟨rfl, by decide⟩

/-- C2 (amended): the nested body is unwrapped (message `quota`, code 429)
for classification only, and the failure is reclassified as a quota error
marked retryable (`isRetryable = true`); the surfaced error carries the fixed
canned quota message rather than `quota`, and the outer retry helper performs
no second invocation, because the re-thrown `GeminiError`'s serialized form
no longer contains any transient indicator. -/
theorem claim2_quota_reclassification :
    catchBlock c2Err = mkGeminiJsErr cannedQuotaMsg true ∧
    (catchBlock c2Err).geminiRetryable = some true ∧
    isTransient (catchBlock c2Err) = false ∧
    retryRun c2Op 1 2000 0 = ([], 1, .error (mkGeminiJsErr cannedQuotaMsg true)) := by
  refine ⟨by decide, by decide, by decide, rfl⟩

/-! ## Tool-execution loop (`geminiService.ts`, lines 319–393)

A streamed turn is its sequence of chunks; each chunk carries a text delta
and zero or more function-call requests.  The loop accumulates text into the
raw buffer, collects the turn's tool calls, and — when the turn yielded at
least one call — resets the raw buffer (`finalJsonText = ""`), builds the
responses of the recognized calls, and continues with the next turn; a turn
with zero calls terminates the loop.  Narration side effects are per-chunk
and are modelled by `processChunk` above. -/

structure FnCall where
  id : String
  name : String
  energyJoules : Option ℚ
  region : Option String
deriving DecidableEq

structure FnResponse where
  id : String
  name : String
  carbonGrams : ℚ
deriving DecidableEq

def REGION_CARBON_INTENSITY : List (String × ℚ) :=
  [("us-central1", 360), ("asia-east1", 620), ("europe-west4", 180),
   ("global", 450), ("us-east1", 480)]

def regionLookup (r : String) : Option ℚ :=
  (REGION_CARBON_INTENSITY.find? fun p => p.1 = r).map Prod.snd

/-- `REGION_CARBON_INTENSITY[region] || REGION_CARBON_INTENSITY['global'] || 450`. -/
def intensityOf (region : String) : ℚ :=
  let globalFallback : ℚ :=
    match regionLookup "global" with
    | some g => if g = 0 then 450 else g
    | none => 450
  match regionLookup region with
  | some q => if q = 0 then globalFallback else q
  | none => globalFallback

/-- The body of the recognized-tool branch: default the arguments
(`args.energyJoules || 0`, `args.region || "global"`), look up the region
intensity, and convert Joules → kWh → grams of CO₂. -/
def mkCarbonResponse (c : FnCall) : FnResponse :=
  let joules : ℚ :=
    match c.energyJoules with
    | some j => j
    | none => 0
  let region : String :=
    match c.region with
    | some r => if r = "" then "global" else r
    | none => "global"
  let intensity := intensityOf region
  let kwh := joules / 3600000
  { id := c.id, name := c.name, carbonGrams := kwh * intensity }

/-- The per-call dispatch of the tool loop: only the single registered tool
name produces a response; any other name is skipped without effect. -/
def handleCall (c : FnCall) : Option FnResponse :=
  if c.name = "calculate_carbon_footprint" then some (mkCarbonResponse c) else none

def buildFunctionResponses (calls : List FnCall) : List FnResponse :=
  calls.filterMap handleCall

structure Chunk where
  text : String
  functionCalls : List FnCall
deriving DecidableEq

/-- Per-chunk accumulation of `accumulatedText`/`finalJsonText`. -/
def turnText (chs : List Chunk) : String :=
  chs.foldl (fun a c => a ++ c.text) ""

/-- Per-chunk collection of `toolCalls.push(...chunk.functionCalls)`. -/
def turnCalls (chs : List Chunk) : List FnCall :=
  chs.foldl (fun a c => a ++ c.functionCalls) []

structure LoopResult where
  buffer : String
  streamingTurns : Nat
  toolRounds : Nat
  responseTrace : List (List FnResponse)
deriving DecidableEq

/-- The `while (keepGoing)` loop, driven by a script of turns (the backend's
reply to each request): accumulate the turn into the buffer; a turn with
tool calls resets the buffer and continues, recording the built responses
(which form the next turn's input message); a turn without tool calls
terminates with the accumulated buffer.  `none` models a script too short
for the session (the real backend always answers the next request). -/
def runLoop : List (List Chunk) → String → Nat → Nat → List (List FnResponse) →
    Option LoopResult
  | [], _, _, _, _ => none
  | turn :: rest, buf, t, tr, resps =>
    let buf2 := buf ++ turnText turn
    let calls := turnCalls turn
    if calls.isEmpty then some ⟨buf2, t + 1, tr, resps⟩
    else runLoop rest "" (t + 1) (tr + 1) (resps ++ [buildFunctionResponses calls])

def runSession (turns : List (List Chunk)) : Option LoopResult :=
  runLoop turns "" 0 0 []

/-! ## Claim C8 -/

/-- C8: any turn with at least one tool call resets the raw buffer before
the next streaming turn; a turn with zero tool calls terminates the loop
immediately; and a session whose first turn yields exactly one recognized
tool call and whose second turn yields none consists of two streaming turns
and one tool round, with the candidate payload taken only from the second
turn's buffer. -/
theorem claim8_buffer_reset_invariant :
    (∀ (turn : List Chunk) (rest : List (List Chunk)) (buf : String) (t tr : Nat)
        (resps : List (List FnResponse)), turnCalls turn ≠ [] →
        runLoop (turn :: rest) buf t tr resps =
          runLoop rest "" (t + 1) (tr + 1) (resps ++ [buildFunctionResponses (turnCalls turn)])) ∧
    (∀ (turn : List Chunk) (rest : List (List Chunk)) (buf : String) (t tr : Nat)
        (resps : List (List FnResponse)), turnCalls turn = [] →
        runLoop (turn :: rest) buf t tr resps = some ⟨buf ++ turnText turn, t + 1, tr, resps⟩) ∧
    (∀ (turn1 turn2 : List Chunk) (c : FnCall), turnCalls turn1 = [c] →
        c.name = "calculate_carbon_footprint" → turnCalls turn2 = [] →
        runSession [turn1, turn2] = some ⟨turnText turn2, 2, 1, [[mkCarbonResponse c]]⟩) := by
  refine ⟨?_, ?_, ?_⟩
  · intro turn rest buf t tr resps h
    rw [runLoop]
    simp [List.isEmpty_iff, h]
  · intro turn rest buf t tr resps h
    rw [runLoop]
    simp [List.isEmpty_iff, h]
  · intro turn1 turn2 c h1 hc h2
    have hne : turnCalls turn1 ≠ [] := by simp [h1]
    show runLoop [turn1, turn2] "" 0 0 [] = _
    rw [runLoop]
    simp only [List.isEmpty_iff, hne, if_neg hne, h1]
    rw [runLoop]
    simp [h2, buildFunctionResponses, handleCall, hc, String.empty_append]

/-- Witness for C8: a concrete two-turn session with one recognized carbon
tool call in the first turn and a plain payload turn after it. -/
theorem claim8_witness :
    runSession
        [[⟨"narration", [⟨"call-1", "calculate_carbon_footprint", some 3600000, some "global"⟩]⟩],
         [⟨"payload", []⟩]] =
      some ⟨turnText [⟨"payload", []⟩], 2, 1,
        [[mkCarbonResponse ⟨"call-1", "calculate_carbon_footprint", some 3600000, some "global"⟩]]⟩ :=
  claim8_buffer_reset_invariant.2.2
    [⟨"narration", [⟨"call-1", "calculate_carbon_footprint", some 3600000, some "global"⟩]⟩]
    [⟨"payload", []⟩]
    ⟨"call-1", "calculate_carbon_footprint", some 3600000, some "global"⟩
    (by decide) rfl (by decide)

/-! ## Claim C9 -/

/-- C9: a tool-call request whose name is not the single registered tool
produces no response (`handleCall` is a no-op on it, and a list of only
unrecognized calls builds an empty response list), and the loop simply
continues into the next turn with an empty response message — no error is
raised and no `ToolCallResult` is produced. -/
theorem claim9_unknown_tool_noop :
    (∀ c : FnCall, c.name ≠ "calculate_carbon_footprint" → handleCall c = none) ∧
    (∀ calls : List FnCall, (∀ c ∈ calls, c.name ≠ "calculate_carbon_footprint") →
        buildFunctionResponses calls = []) ∧
    (∀ (turn : List Chunk) (rest : List (List Chunk)) (buf : String) (t tr : Nat)
        (resps : List (List FnResponse)), turnCalls turn ≠ [] →
        (∀ c ∈ turnCalls turn, c.name ≠ "calculate_carbon_footprint") →
        runLoop (turn :: rest) buf t tr resps =
          runLoop rest "" (t + 1) (tr + 1) (resps ++ [[]])) := by
  have hnone : ∀ c : FnCall, c.name ≠ "calculate_carbon_footprint" → handleCall c = none := by
    intro c h
    simp [handleCall, h]
  have hempty : ∀ calls : List FnCall,
      (∀ c ∈ calls, c.name ≠ "calculate_carbon_footprint") →
      buildFunctionResponses calls = [] := by
    intro calls h
    induction calls with
    | nil => rfl
    | cons c rest ih =>
      have h1 := hnone c (h c (by simp))
      have h2 := ih fun x hx => h x (by simp [hx])
      simp only [buildFunctionResponses, List.filterMap_cons, h1]
      exact h2
  refine ⟨hnone, hempty, ?_⟩
  · intro turn rest buf t tr resps hne hall
    rw [runLoop]
    simp [List.isEmpty_iff, hne, hempty (turnCalls turn) hall]

/-- Witness for C9: a concrete turn containing only a call to the
unregistered tool name `google_search` is skipped without producing a
response, and the loop proceeds to the next turn. -/
theorem claim9_witness :
    handleCall ⟨"call-9", "google_search", none, none⟩ = none ∧
      buildFunctionResponses [⟨"call-9", "google_search", none, none⟩] = [] ∧
      runLoop [[⟨"hi", [⟨"call-9", "google_search", none, none⟩]⟩], [⟨"done", []⟩]] "" 0 0 [] =
        runLoop [[⟨"done", []⟩]] "" 1 1 [[]] :=
  ⟨claim9_unknown_tool_noop.1 ⟨"call-9", "google_search", none, none⟩ (by decide),
   claim9_unknown_tool_noop.2.1 [⟨"call-9", "google_search", none, none⟩] (by decide),
   claim9_unknown_tool_noop.2.2 [⟨"hi", [⟨"call-9", "google_search", none, none⟩]⟩]
     [[⟨"done", []⟩]] "" 0 0 [] (by decide) (by decide)⟩

/-! ## Claim C4 -/

theorem firstIdxOf_of_not_mem_prefix {c : Char} :
    ∀ (p t : List Char), c ∉ p → firstIdxOf c (p ++ c :: t) = some p.length := by
  intro p
  induction p with
  | nil => intro t _; simp [firstIdxOf]
  | cons x p ih =>
    intro t h
    have hx : x ≠ c := fun hEq => h (by simp [hEq])
    have hnp : c ∉ p := fun hm => h (List.mem_cons_of_mem x hm)
    simp [firstIdxOf, hx, ih t hnp]

theorem lastIdxOf_append_cons (A s : List Char) (h : '}' ∉ s) :
    lastIdxOf '}' (A ++ '}' :: s) = some A.length := by
  unfold lastIdxOf
  have hrev : (A ++ '}' :: s).reverse = s.reverse ++ '}' :: A.reverse := by
    simp
  have hs : '}' ∉ s.reverse := by simpa using h
  rw [hrev, firstIdxOf_of_not_mem_prefix s.reverse A.reverse hs]
  simp [Nat.add_comm, Nat.add_assoc]

theorem slice_middle (p m s : List Char) :
    sliceIncl p.length (p.length + m.length + 1) (p ++ '{' :: (m ++ '}' :: s)) =
      '{' :: (m ++ ['}']) := by
  unfold sliceIncl
  rw [List.drop_left]
  have h2 : p.length + m.length + 1 + 1 - p.length = m.length + 1 + 1 := by omega
  rw [h2, List.take_succ_cons]
  have h3 : m.length + 1 = m.length + 1 := rfl
  rw [List.take_append]
  simp

/-- C4 counterexample: with empty (brace-free) prefix and suffix and the
valid payload `"a":"[[PHASE: X]]"` — whose embedding in braces parses as
JSON — extraction does not recover the payload wrapped in braces: the
global marker strip rewrites the buffer to `{"a":""}` first. -/
theorem claim4_counterexample :
    ('{' ∉ ([] : List Char)) ∧ ('}' ∉ ([] : List Char)) ∧
    (JsonVal.parse "\x7b\"a\":\"[[PHASE: X]]\"\x7d").isSome = true ∧
    extractCandidate "\x7b\"a\":\"[[PHASE: X]]\"\x7d" = "\x7b\"a\":\"\"\x7d" ∧
    "\x7b\"a\":\"\"\x7d" ≠ "\x7b\"a\":\"[[PHASE: X]]\"\x7d" := by
  refine ⟨by decide, by decide, by decide, rfl, by decide⟩

theorem extractCandidateL_embed (p m s : List Char)
    (hp1 : '{' ∉ p) (hs2 : '}' ∉ s)
    (hm : hasSubL phaseLit (p ++ '{' :: (m ++ '}' :: s)) = false) :
    extractCandidateL (p ++ '{' :: (m ++ '}' :: s)) = '{' :: (m ++ ['}']) := by
  have hstrip := stripGlobalL_of_no_marker _ hm
  have hfirst : firstIdxOf '{' (p ++ '{' :: (m ++ '}' :: s)) = some p.length :=
    firstIdxOf_of_not_mem_prefix p _ hp1
  have hlast : lastIdxOf '}' (p ++ '{' :: (m ++ '}' :: s)) = some (p.length + m.length + 1) := by
    have hEq : p ++ '{' :: (m ++ '}' :: s) = (p ++ '{' :: m) ++ '}' :: s := by simp
    rw [hEq, lastIdxOf_append_cons (p ++ '{' :: m) s hs2]
    simp [Nat.add_comm, Nat.add_assoc]
  simp only [extractCandidateL, hstrip, hfirst, hlast]
  rw [if_pos (by omega : p.length < p.length + m.length + 1)]
  exact slice_middle p m s

/-- C4 (amended): extraction is a right inverse of well-formed embedding
*provided the buffer contains no occurrence of the marker prefix
`[[PHASE:`* (otherwise the global strip rewrites the payload first): for
every buffer `prefix ++ "{" ++ payload ++ "}" ++ suffix` with brace-free
prefix and suffix, no `[[PHASE:` occurrence, and a payload whose braced form
parses, extraction recovers exactly the payload wrapped in braces and
parsing it succeeds. -/
theorem claim4_extraction_right_inverse (p m s : List Char) (v : JsonVal)
    (hp1 : '{' ∉ p) (hp2 : '}' ∉ p) (hs1 : '{' ∉ s) (hs2 : '}' ∉ s)
    (hm : hasSubL phaseLit (p ++ '{' :: (m ++ '}' :: s)) = false)
    (hv : JsonVal.parse (String.mk ('{' :: (m ++ ['}']))) = some v) :
    extractCandidate (String.mk (p ++ '{' :: (m ++ '}' :: s))) =
      String.mk ('{' :: (m ++ ['}'])) ∧
    extractAndParse (String.mk (p ++ '{' :: (m ++ '}' :: s))) = .ok v := by
  have hcand : extractCandidate (String.mk (p ++ '{' :: (m ++ '}' :: s))) =
      String.mk ('{' :: (m ++ ['}'])) :=
    congrArg String.mk (extractCandidateL_embed p m s hp1 hs2 hm)
  refine ⟨hcand, ?_⟩
  have hne : String.mk (p ++ '{' :: (m ++ '}' :: s)) ≠ "" := by
    intro hEq
    have hdata : p ++ '{' :: (m ++ '}' :: s) = ([] : List Char) := congrArg String.data hEq
    simp at hdata
  unfold extractAndParse
  rw [if_neg hne, hcand, hv]

/-- Witness for C4 at the concrete buffer `x{"a":1}y`. -/
theorem claim4_witness :
    extractCandidate (String.mk (['x'] ++ '{' :: ("\"a\":1".data ++ '}' :: ['y']))) =
      String.mk ('{' :: ("\"a\":1".data ++ ['}'])) := by
  have hsome : (JsonVal.parse (String.mk ('{' :: ("\"a\":1".data ++ ['}'])))).isSome = true := by
    decide
  obtain ⟨v, hv⟩ := Option.isSome_iff_exists.mp hsome
  exact (claim4_extraction_right_inverse ['x'] "\"a\":1".data ['y'] v (by decide) (by decide)
    (by decide) (by decide) (by decide) hv).1

/-- Witness for C7 at the empty input, via the Low-tier characterization. -/
theorem claim7_witness :
    (analyzeCodeStatic "").complexityLevel = ComplexityLevel.Low :=
  ((claim7_tier_assignment "").2.2.2).mpr ⟨by decide, by decide⟩
